import Mathlib

/-!
Shallow embedding of `src/scripts.js` (client-side search for portalmas).

Strings are modelled as `List Char`.  The DOM state relevant to the filter is
modelled explicitly: each card item carries its `textContent`, its cached
`dataset.search` string, and its inline `style.display`; the page state
carries the value of the search input, the item list, and the display of the
"no results" message element.
-/

namespace Portalmas

/-- Code points matched by the JavaScript regexp class `\s`
(whitespace and line terminators). -/
def jsWsCodes : List Nat :=
  [0x09, 0x0A, 0x0B, 0x0C, 0x0D, 0x20, 0xA0, 0x1680,
   0x2000, 0x2001, 0x2002, 0x2003, 0x2004, 0x2005, 0x2006, 0x2007,
   0x2008, 0x2009, 0x200A, 0x2028, 0x2029, 0x202F, 0x205F, 0x3000, 0xFEFF]

/-- Whether a character is JavaScript whitespace (`\s`, also the set trimmed
by `String.prototype.trim`). -/
def isJsWs (c : Char) : Bool := jsWsCodes.contains c.toNat

/-- One character of `String.prototype.toLowerCase` (ASCII range; page
content and queries stay in this range). -/
def lowerChar (c : Char) : Char :=
  if 65 ≤ c.toNat ∧ c.toNat ≤ 90 then Char.ofNat (c.toNat + 32) else c

/-- JavaScript `String.prototype.toLowerCase`. -/
def lowerStr (s : List Char) : List Char := s.map lowerChar

/-- JavaScript `String.prototype.trim`: drop leading and trailing whitespace. -/
def jsTrim (s : List Char) : List Char :=
  (s.dropWhile isJsWs).rdropWhile isJsWs

/-- Worker for `collapseWs`: the flag records whether the previous
character belonged to a whitespace run (whose single space was already
emitted). -/
def collapseGo : Bool → List Char → List Char
  | _, [] => []
  | inRun, c :: cs =>
    if isJsWs c then
      if inRun then collapseGo true cs else ' ' :: collapseGo true cs
    else c :: collapseGo false cs

/-- JavaScript `str.replace` of the global whitespace-run pattern by one
space: every maximal run of whitespace becomes a single space. -/
def collapseWs (s : List Char) : List Char := collapseGo false s

/-- JavaScript `text.indexOf(q) !== -1`: substring containment test,
exactly the check `doSearch` performs per item. -/
def jsIncludes (hay q : List Char) : Bool :=
  match hay with
  | [] => q.isEmpty
  | c :: t => q.isPrefixOf (c :: t) || jsIncludes t q

/-- Normalisation applied at load time to the `textContent` of each item
(line 125: whitespace runs collapsed, then trimmed, then lowercased). -/
def jsNormalizeText (t : List Char) : List Char :=
  lowerStr (jsTrim (collapseWs t))

/-- Normalisation `doSearch` applies to the value of the input
(line 151: `searchInput.value.trim().toLowerCase()`). -/
def normQuery (v : List Char) : List Char := lowerStr (jsTrim v)

/-- The CSS display value that hides an element. -/
def strNone : List Char := ['n', 'o', 'n', 'e']

/-- One card element: its text content, its cached `dataset.search`, and its
inline `style.display`. -/
structure Item where
  textContent : List Char
  search : List Char
  display : List Char
deriving DecidableEq, Repr

/-- The view the filter has of a collection page: the value of the search
input, the
items collected from all containers, and the display of the "no results"
message element. -/
structure PageState where
  inputValue : List Char
  items : List Item
  noResultsDisplay : List Char
deriving DecidableEq, Repr

/-- An item is visible when its inline display is not the hiding value. -/
def itemVisible (it : Item) : Bool := decide (it.display ≠ strNone)

/-- The "no results" message is shown when its display is not the hiding
value. -/
def msgVisible (s : PageState) : Bool := decide (s.noResultsDisplay ≠ strNone)

/-- Number of visible items of a page state. -/
def countVisible (s : PageState) : Nat := (s.items.filter itemVisible).length

/-- Loop body of the empty-query branch (line 153): clear the inline
display of the item. -/
def showItem (it : Item) : Item := { it with display := [] }

/-- Loop body of the non-empty branch (lines 159-167): show the item when
its cached search text contains the query, hide it otherwise. -/
def filterItem (q : List Char) (it : Item) : Item :=
  if jsIncludes it.search q then { it with display := [] }
  else { it with display := strNone }

/-- Number of items the non-empty branch counts as visible (the `visible`
counter of lines 158-167). -/
def matchCount (q : List Char) (items : List Item) : Nat :=
  (items.filter fun it => jsIncludes it.search q).length

/-- The filter routine `doSearch` (lines 150-170): normalise the query;
an empty query shows every item and hides the message; otherwise each item
is shown iff its cached search text contains the query, and the message is
shown iff no item matched. -/
def doSearch (s : PageState) : PageState :=
  let q := normQuery s.inputValue
  if q.isEmpty then
    { s with items := s.items.map showItem,
             noResultsDisplay := strNone }
  else
    { s with items := s.items.map (filterItem q),
             noResultsDisplay :=
               if matchCount q s.items = 0 then [] else strNone }

/-- Sample state matching the worked example of the spec. -/
def exState (q : String) : PageState :=
  { inputValue := q.toList,
    items := [⟨[], ("laporan tahunan 2020".toList), []⟩,
              ⟨[], ("berita acara".toList), []⟩],
    noResultsDisplay := strNone }

example : countVisible (doSearch (exState ("TAHUN"))) = 1 := by decide
example : msgVisible (doSearch (exState ("xyz"))) = true := by decide
example : countVisible (doSearch (exState (""))) = 2 := by decide

/-- The maximal whitespace-separated words of a string, in order.  This is
the spec-level reading of "concatenation of visible text with whitespace
runs collapsed": the words joined by single spaces. -/
def wordsWs : List Char → List (List Char)
  | [] => []
  | c :: cs =>
    if isJsWs c then wordsWs cs
    else (c :: cs.takeWhile fun d => !isJsWs d) ::
         wordsWs (cs.dropWhile fun d => !isJsWs d)
termination_by s => s.length
decreasing_by
  all_goals simp only [List.length_cons]
  all_goals first
    | omega
    | exact Nat.lt_succ_of_le (List.dropWhile_sublist _).length_le

/-- Join words with a single space between consecutive words. -/
def joinWords : List (List Char) → List Char
  | [] => []
  | [w] => w
  | w :: x :: ws => w ++ ' ' :: joinWords (x :: ws)

/-- The description the spec gives of the cached search text of an item:
the words of the item joined by single spaces (collapsed and trimmed),
lowercased. -/
def specSearchText (t : List Char) : List Char :=
  lowerStr (joinWords (wordsWs t))

/-- Whether a string starts with whitespace (proof bookkeeping for the
equivalence of the two search-text descriptions). -/
def headIsWs : List Char → Bool
  | [] => false
  | c :: _ => isJsWs c

/-- The single leading space `collapseWs` leaves before the first word of a
whitespace-led string (proof bookkeeping). -/
def leadSp (xs : List Char) : List Char :=
  if headIsWs xs && !(wordsWs xs).isEmpty then [' '] else []

/-- UTF-8 encoding of one character, as byte values. -/
def utf8Bytes (c : Char) : List Nat :=
  let n := c.toNat
  if n < 0x80 then [n]
  else if n < 0x800 then [0xC0 + n / 64, 0x80 + n % 64]
  else if n < 0x10000 then
    [0xE0 + n / 4096, 0x80 + (n / 64) % 64, 0x80 + n % 64]
  else
    [0xF0 + n / 262144, 0x80 + (n / 4096) % 64, 0x80 + (n / 64) % 64,
     0x80 + n % 64]

/-- Uppercase hexadecimal digit for a value below 16. -/
def hexUpper (n : Nat) : Char :=
  if n < 10 then Char.ofNat (48 + n) else Char.ofNat (55 + n)

/-- Characters `encodeURIComponent` leaves unescaped: ASCII letters, digits,
and `- _ . ! ~ *  ( )` together with the apostrophe (code 39). -/
def isUriUnreserved (c : Char) : Bool :=
  let n := c.toNat
  (65 ≤ n && n ≤ 90) || (97 ≤ n && n ≤ 122) || (48 ≤ n && n ≤ 57) ||
    [45, 95, 46, 33, 126, 42, 39, 40, 41].contains n

/-- JavaScript `encodeURIComponent`: unreserved characters pass through,
everything else becomes `%XX` escapes of its UTF-8 bytes. -/
def encodeURIComponent (s : List Char) : List Char :=
  s.flatMap fun c =>
    if isUriUnreserved c then [c]
    else (utf8Bytes c).flatMap fun b => ['%', hexUpper (b / 16), hexUpper (b % 16)]

/-- The view the filter has of an index-like page: the value of the search
input and the (highlight) items present on the page. -/
structure IndexPage where
  inputValue : List Char
  items : List Item
deriving DecidableEq, Repr

/-- Page classification (lines 42-44): index-like iff a `.highlight-items`
container is present and no `.koleksi` container is. -/
def isIndexLike (hasHighlight hasKoleksi : Bool) : Bool :=
  hasHighlight && !hasKoleksi

/-- Redirect URL built by the index-page handlers (lines 53 and 64):
`koleksi1.html?q=` followed by the URL-encoded query. -/
def koleksiTarget (q : List Char) : List Char :=
  ("koleksi1.html?q=".toList) ++ encodeURIComponent q

/-- Keydown handler installed on index-like pages (lines 49-57): on Enter,
trim the input; when non-empty, navigate to the redirect URL.  The result
is the navigation target (if any) and the page afterwards. -/
def indexKeydown (key : List Char) (p : IndexPage) :
    Option (List Char) × IndexPage :=
  if key = ("Enter".toList) then
    let q := jsTrim p.inputValue
    if q.isEmpty then (none, p) else (some (koleksiTarget q), p)
  else (none, p)

/-- Click handler of the search button on index-like pages (lines 59-67). -/
def indexBtnClick (p : IndexPage) : Option (List Char) × IndexPage :=
  let q := jsTrim p.inputValue
  if q.isEmpty then (none, p) else (some (koleksiTarget q), p)

/-- The DOM as the load handler finds it: the value of the search input
when one exists, which container classes are present, the items of each
`.koleksi` / `.highlight-items` container, and the display of a
pre-existing `.no-results` element when one exists. -/
structure Page where
  searchInput : Option (List Char)
  hasHighlight : Bool
  hasKoleksi : Bool
  containerItems : List (List Item)
  existingNoResults : Option (List Char)
deriving DecidableEq, Repr

/-- What the load handler set up: nothing (early return), the index-page
redirect handlers, or in-page filtering with an initial state. -/
inductive SetupOutcome where
  | noop : SetupOutcome
  | indexMode : SetupOutcome
  | filterMode : PageState → SetupOutcome
deriving DecidableEq, Repr

/-- Initial display of the "no results" message: a reused `.no-results`
element keeps its display, a freshly created one starts hidden
(lines 130-147). -/
def initialMsgDisplay (p : Page) : List Char :=
  match p.existingNoResults with
  | some d => d
  | none => strNone

/-- Precompute `dataset.search` on one item (lines 124-127). -/
def initItem (it : Item) : Item :=
  { it with search := jsNormalizeText it.textContent }

/-- The search part of the DOMContentLoaded handler (lines 38-147): bail out
without a search input; install redirect handlers on an index-like page;
bail out without containers or without items; otherwise cache the search
text of each item and set up the filter state. -/
def setup (p : Page) : Page × SetupOutcome :=
  match p.searchInput with
  | none => (p, .noop)
  | some v =>
    if isIndexLike p.hasHighlight p.hasKoleksi then (p, .indexMode)
    else if p.containerItems.isEmpty then (p, .noop)
    else if p.containerItems.flatten.isEmpty then (p, .noop)
    else
      let containers := p.containerItems.map fun c => c.map initItem
      ({ p with containerItems := containers },
       .filterMode { inputValue := v,
                     items := p.containerItems.flatten.map initItem,
                     noResultsDisplay := initialMsgDisplay p })

/-- Hexadecimal value of a byte that is an ASCII hex digit. -/
def hexVal (b : Nat) : Option Nat :=
  if 48 ≤ b ∧ b ≤ 57 then some (b - 48)
  else if 65 ≤ b ∧ b ≤ 70 then some (b - 55)
  else if 97 ≤ b ∧ b ≤ 102 then some (b - 87)
  else none

/-- Worker for `pctDecode`; the fuel (initially the length of the list, which
always suffices since every step consumes at least one byte) only makes the
recursion structural. -/
def pctDecodeGo : Nat → List Nat → List Nat
  | _, [] => []
  | 0, l => l
  | fuel + 1, 37 :: rest =>
    (match rest with
    | h1 :: h2 :: rest2 =>
      match hexVal h1, hexVal h2 with
      | some a, some b => (a * 16 + b) :: pctDecodeGo fuel rest2
      | _, _ => 37 :: pctDecodeGo fuel rest
    | _ => 37 :: pctDecodeGo fuel rest)
  | fuel + 1, b :: rest => b :: pctDecodeGo fuel rest

/-- Percent-decoding on bytes: `%XY` with two hex digits becomes one byte,
anything else is copied unchanged. -/
def pctDecode (l : List Nat) : List Nat := pctDecodeGo l.length l

/-- The replacement character emitted for invalid UTF-8. -/
def replChar : Char := Char.ofNat 0xFFFD

/-- Whether a byte is a UTF-8 continuation byte. -/
def contB (b : Nat) : Bool := 0x80 ≤ b && b ≤ 0xBF

/-- Worker for `utf8Decode`; the fuel (initially the length of the list, which
always suffices since every step consumes at least one byte) only makes the
recursion structural. -/
def utf8DecodeGo : Nat → List Nat → List Char
  | _, [] => []
  | 0, _ => []
  | fuel + 1, b :: rest =>
    if b < 0x80 then Char.ofNat b :: utf8DecodeGo fuel rest
    else if 0xC2 ≤ b && b ≤ 0xDF then
      (match rest with
      | b2 :: r2 =>
        if contB b2 then
          Char.ofNat ((b - 0xC0) * 64 + (b2 - 0x80)) :: utf8DecodeGo fuel r2
        else replChar :: utf8DecodeGo fuel rest
      | [] => [replChar])
    else if 0xE0 ≤ b && b ≤ 0xEF then
      (match rest with
      | b2 :: b3 :: r3 =>
        let n := (b - 0xE0) * 4096 + (b2 - 0x80) * 64 + (b3 - 0x80)
        if contB b2 && contB b3 && 0x800 ≤ n && !(0xD800 ≤ n && n ≤ 0xDFFF)
        then Char.ofNat n :: utf8DecodeGo fuel r3
        else replChar :: utf8DecodeGo fuel rest
      | _ => [replChar])
    else if 0xF0 ≤ b && b ≤ 0xF4 then
      (match rest with
      | b2 :: b3 :: b4 :: r4 =>
        let n := (b - 0xF0) * 262144 + (b2 - 0x80) * 4096 +
                 (b3 - 0x80) * 64 + (b4 - 0x80)
        if contB b2 && contB b3 && contB b4 && 0x10000 ≤ n && n ≤ 0x10FFFF
        then Char.ofNat n :: utf8DecodeGo fuel r4
        else replChar :: utf8DecodeGo fuel rest
      | _ => [replChar])
    else replChar :: utf8DecodeGo fuel rest

/-- UTF-8 decoding of a byte sequence, invalid sequences becoming
replacement characters. -/
def utf8Decode (l : List Nat) : List Char := utf8DecodeGo l.length l

/-- Split a character list on a separator (the pieces between separators,
empty pieces included). -/
def splitSep (sep : Char) : List Char → List (List Char)
  | [] => [[]]
  | c :: cs =>
    let r := splitSep sep cs
    if c = sep then [] :: r
    else
      match r with
      | [] => [[c]]
      | h :: t => (c :: h) :: t

/-- Decoding of one `application/x-www-form-urlencoded` token: encode to
bytes, turn plus signs into spaces, percent-decode, UTF-8 decode. -/
def formDecode (xs : List Char) : List Char :=
  utf8Decode (pctDecode ((xs.flatMap utf8Bytes).map fun b =>
    if b = 43 then 32 else b))

/-- JavaScript `new URLSearchParams(search)`: strip one leading question
mark, split on
ampersands, drop empty segments, split each segment at its first equals
sign, and form-decode names and values. -/
def parseSearchParams (search : List Char) : List (List Char × List Char) :=
  let s := match search with
    | c :: t => if c = '?' then t else c :: t
    | [] => []
  (splitSep '&' s).filterMap fun seg =>
    if seg.isEmpty then none
    else
      let name := seg.takeWhile fun c => c ≠ '='
      let value := match seg.dropWhile fun c => c ≠ '=' with
        | _ :: v => v
        | [] => []
      some (formDecode name, formDecode value)

/-- JavaScript `params.get(name)`: the value of the first pair with the
given name. -/
def getParam (name : List Char) (search : List Char) : Option (List Char) :=
  ((parseSearchParams search).find? fun p => decide (p.fst = name)).map
    fun p => p.snd

/-- The `?q=` block (lines 187-198): a present, non-empty `q` parameter is
written into the input and the filter runs immediately; otherwise nothing
happens. -/
def applyUrlQuery (search : List Char) (s : PageState) : PageState :=
  match getParam ("q".toList) search with
  | some v => if v.isEmpty then s else doSearch { s with inputValue := v }
  | none => s

/-- The whole load handler on a given page and URL search string: run
`setup`; in filter mode, additionally apply the URL query. -/
def onLoad (p : Page) (search : List Char) : Page × SetupOutcome :=
  match setup p with
  | (p2, .filterMode s) => (p2, .filterMode (applyUrlQuery search s))
  | other => other

example : getParam ("q".toList) ("?q=banjir".toList) = some ("banjir".toList) := by decide

example : getParam ("q".toList) ("?q=a%20b&x=1".toList) = some ("a b".toList) := by decide

example : encodeURIComponent ("a b".toList) = ("a%20b".toList) := by decide

/-- Sample raw card, as found in the DOM before load. -/
def exRaw : Item := ⟨("Banjir  2020".toList), [], []⟩

/-- The sample card after its search text has been cached. -/
def exInit : Item := ⟨("Banjir  2020".toList), ("banjir 2020".toList), []⟩

/-- Sample collection page holding the raw card. -/
def exPage : Page :=
  { searchInput := some [], hasHighlight := false, hasKoleksi := true,
    containerItems := [[exRaw]], existingNoResults := none }

/-- The sample collection page after load. -/
def exPage2 : Page := { exPage with containerItems := [[exInit]] }

/-- The filter state `setup` builds for the sample collection page. -/
def exPS : PageState :=
  { inputValue := [], items := [exInit], noResultsDisplay := strNone }

/-- Sample page without a search input. -/
def noInputPage : Page :=
  { searchInput := none, hasHighlight := true, hasKoleksi := true,
    containerItems := [[exRaw]], existingNoResults := none }

/-- Sample page with a search input but no containers. -/
def noContainersPage : Page :=
  { searchInput := some [], hasHighlight := false, hasKoleksi := false,
    containerItems := [], existingNoResults := none }

/-- Sample page whose containers hold no items. -/
def emptyContainersPage : Page :=
  { searchInput := some [], hasHighlight := true, hasKoleksi := true,
    containerItems := [[], []], existingNoResults := none }

/-!
Helper lemmas shared by the claim theorems.
-/

theorem jsIncludes_iff (hay q : List Char) :
    jsIncludes hay q = true ↔ q <:+: hay := by
  induction hay with
  | nil => simp [jsIncludes]
  | cons c t ih =>
    simp [jsIncludes, ih, List.infix_cons_iff]

theorem showItem_search (it : Item) : (showItem it).search = it.search := rfl

theorem filterItem_search (q : List Char) (it : Item) :
    (filterItem q it).search = it.search := by
  unfold filterItem
  split <;> rfl

theorem itemVisible_showItem (it : Item) : itemVisible (showItem it) = true := by
  simp [itemVisible, showItem, strNone]

theorem itemVisible_filterItem (q : List Char) (it : Item) :
    itemVisible (filterItem q it) = jsIncludes it.search q := by
  unfold filterItem
  by_cases h : jsIncludes it.search q = true
  · simp [h, itemVisible, strNone]
  · simp only [Bool.not_eq_true] at h
    simp [h, itemVisible, strNone]

theorem doSearch_empty (s : PageState) (h : normQuery s.inputValue = []) :
    doSearch s = { s with items := s.items.map showItem,
                          noResultsDisplay := strNone } := by
  simp [doSearch, h]

theorem doSearch_nonempty (s : PageState) (h : normQuery s.inputValue ≠ []) :
    doSearch s =
      { s with items := s.items.map (filterItem (normQuery s.inputValue)),
               noResultsDisplay :=
                 if matchCount (normQuery s.inputValue) s.items = 0 then []
                 else strNone } := by
  simp [doSearch, h]

theorem doSearch_inputValue (s : PageState) :
    (doSearch s).inputValue = s.inputValue := by
  by_cases h : normQuery s.inputValue = []
  · rw [doSearch_empty s h]
  · rw [doSearch_nonempty s h]

theorem countVisible_filter (q : List Char) (items : List Item) :
    ((items.map (filterItem q)).filter itemVisible).length = matchCount q items := by
  rw [List.filter_map, List.length_map]
  unfold matchCount
  congr 1
  apply List.filter_congr
  intro it _
  simp [Function.comp, itemVisible_filterItem]

/-- C1: after `doSearch` runs, an item is visible iff the normalised query
is empty or the cached search text of the item contains it as a substring;
visibility depends only on the query and the cached search text, which is
left unchanged. -/
theorem doSearch_visible_iff (s : PageState) (i : Nat) (h : i < s.items.length) :
    ∃ it : Item, (doSearch s).items[i]? = some it ∧
      it.search = s.items[i].search ∧
      (itemVisible it = true ↔
        (normQuery s.inputValue = [] ∨
          normQuery s.inputValue <:+: s.items[i].search)) := by
  by_cases hq : normQuery s.inputValue = []
  · refine ⟨showItem s.items[i], ?_, rfl, ?_⟩
    · rw [doSearch_empty s hq]
      simp [List.getElem?_map, List.getElem?_eq_getElem h]
    · simp [itemVisible_showItem, hq]
  · refine ⟨filterItem (normQuery s.inputValue) s.items[i], ?_,
      filterItem_search _ _, ?_⟩
    · rw [doSearch_nonempty s hq]
      simp [List.getElem?_map, List.getElem?_eq_getElem h]
    · rw [itemVisible_filterItem, jsIncludes_iff]
      simp [hq]

/-- Witness for C1: on the sample data of the spec with query `tahun`, the first
item is reported present and visible. -/
theorem doSearch_visible_iff_witness :
    0 < (exState ("tahun")).items.length ∧
    ∃ it : Item, (doSearch (exState ("tahun"))).items[0]? = some it ∧
      itemVisible it = true := by
  refine ⟨by decide, ?_⟩
  obtain ⟨it, h1, _, h3⟩ :=
    doSearch_visible_iff (exState ("tahun")) 0 (by decide)
  exact ⟨it, h1, h3.mpr (Or.inr (by decide))⟩

/-- C4: after a run of the filter with a non-empty query, the "no results"
message is displayed iff zero items are visible. -/
theorem noResults_iff_none_visible (s : PageState)
    (h : normQuery s.inputValue ≠ []) :
    (msgVisible (doSearch s) = true ↔ countVisible (doSearch s) = 0) := by
  have h2 : countVisible (doSearch s) =
      matchCount (normQuery s.inputValue) s.items := by
    rw [doSearch_nonempty s h]
    exact countVisible_filter _ _
  rw [h2]
  rw [doSearch_nonempty s h]
  unfold msgVisible
  by_cases hmc : matchCount (normQuery s.inputValue) s.items = 0 <;>
    simp [hmc, strNone]

/-- Witness for C4 at query `xyz` on the sample items: the message is shown
and indeed zero items are visible. -/
theorem noResults_iff_none_visible_witness :
    msgVisible (doSearch (exState ("xyz"))) = true ↔
      countVisible (doSearch (exState ("xyz"))) = 0 :=
  noResults_iff_none_visible (exState ("xyz")) (by decide)

/-- C5: running the filter with an empty (normalised) query makes every
item visible and hides the message, whatever the previous state was. -/
theorem doSearch_empty_query (s : PageState) (h : normQuery s.inputValue = []) :
    (∀ it ∈ (doSearch s).items, it.display = [] ∧ itemVisible it = true) ∧
    (doSearch s).noResultsDisplay = strNone ∧
    msgVisible (doSearch s) = false ∧
    (doSearch s).items.length = s.items.length := by
  rw [doSearch_empty s h]
  refine ⟨?_, rfl, ?_, by simp⟩
  · intro it hit
    simp only [List.mem_map] at hit
    obtain ⟨a, _, rfl⟩ := hit
    exact ⟨rfl, itemVisible_showItem a⟩
  · simp [msgVisible]

/-- Witness for C5: a whitespace-only input on the sample items restores
full visibility and hides the message. -/
theorem doSearch_empty_query_witness :
    (∀ it ∈ (doSearch (exState ("  "))).items,
      it.display = [] ∧ itemVisible it = true) ∧
    (doSearch (exState ("  "))).noResultsDisplay = strNone ∧
    msgVisible (doSearch (exState ("  "))) = false ∧
    (doSearch (exState ("  "))).items.length = (exState ("  ")).items.length :=
  doSearch_empty_query (exState ("  ")) (by decide)

theorem showItem_comp : showItem ∘ showItem = showItem :=
  funext fun _ => rfl

theorem filterItem_idem (q : List Char) (it : Item) :
    filterItem q (filterItem q it) = filterItem q it := by
  unfold filterItem
  by_cases h : jsIncludes it.search q = true
  · simp [h]
  · simp only [Bool.not_eq_true] at h
    simp [h]

theorem filterItem_comp (q : List Char) :
    filterItem q ∘ filterItem q = filterItem q :=
  funext fun it => filterItem_idem q it

theorem matchCount_map_filterItem (q : List Char) (l : List Item) :
    matchCount q (l.map (filterItem q)) = matchCount q l := by
  unfold matchCount
  rw [List.filter_map, List.length_map]
  congr 1
  apply List.filter_congr
  intro it _
  simp [Function.comp, filterItem_search]

/-- C6: the filter is idempotent; running it twice in a row yields exactly
the same page state (visibility set and message state included) as running
it once. -/
theorem doSearch_idempotent (s : PageState) :
    doSearch (doSearch s) = doSearch s := by
  by_cases hq : normQuery s.inputValue = []
  · have h2 : normQuery (doSearch s).inputValue = [] := by
      rw [doSearch_inputValue]; exact hq
    rw [doSearch_empty _ h2, doSearch_empty s hq]
    simp [List.map_map, showItem_comp]
  · have h2 : normQuery (doSearch s).inputValue ≠ [] := by
      rw [doSearch_inputValue]; exact hq
    rw [doSearch_nonempty _ h2, doSearch_nonempty s hq]
    simp [List.map_map, filterItem_comp, matchCount_map_filterItem]

theorem jsTrim_ws_only (v : List Char) (h : ∀ c ∈ v, isJsWs c = true) :
    jsTrim v = [] := by
  unfold jsTrim
  rw [List.dropWhile_eq_nil_iff.mpr h]
  exact List.rdropWhile_nil _

/-- C10: the outcome of the filter depends only on the trimmed, lowercased input
value; equal normalised inputs over the same items give identical
visibility and message state, and a whitespace-only input behaves exactly
as the empty query. -/
theorem doSearch_normalized_input_only :
    (∀ s1 s2 : PageState,
      normQuery s1.inputValue = normQuery s2.inputValue →
      s1.items = s2.items →
      (doSearch s1).items = (doSearch s2).items ∧
      (doSearch s1).noResultsDisplay = (doSearch s2).noResultsDisplay) ∧
    (∀ s : PageState, (∀ c ∈ s.inputValue, isJsWs c = true) →
      (∀ it ∈ (doSearch s).items, it.display = []) ∧
      msgVisible (doSearch s) = false) := by
  constructor
  · intro s1 s2 hq hi
    by_cases h1 : normQuery s1.inputValue = []
    · have h2 : normQuery s2.inputValue = [] := by rw [← hq]; exact h1
      rw [doSearch_empty s1 h1, doSearch_empty s2 h2, hi]
      exact ⟨rfl, rfl⟩
    · have h2 : normQuery s2.inputValue ≠ [] := by rw [← hq]; exact h1
      rw [doSearch_nonempty s1 h1, doSearch_nonempty s2 h2, hi, hq]
      exact ⟨rfl, rfl⟩
  · intro s hws
    have hq : normQuery s.inputValue = [] := by
      unfold normQuery
      rw [jsTrim_ws_only s.inputValue hws]
      rfl
    rw [doSearch_empty s hq]
    constructor
    · intro it hit
      simp only [List.mem_map] at hit
      obtain ⟨a, _, rfl⟩ := hit
      rfl
    · simp [msgVisible]

/-- Witness for C10: an input differing only in case and outer whitespace
gives the same outcome, and a whitespace-only input shows everything. -/
theorem doSearch_normalized_input_only_witness :
    ((doSearch (exState (" TAHUN "))).items =
      (doSearch (exState ("tahun"))).items) ∧
    msgVisible (doSearch (exState (" "))) = false := by
  refine ⟨(doSearch_normalized_input_only.1 (exState (" TAHUN "))
    (exState ("tahun")) (by decide) rfl).1, ?_⟩
  exact (doSearch_normalized_input_only.2 (exState (" ")) (by decide)).2

/-- C7: on an index-like page the search handlers never change the page
(in particular the visibility of no item): they at most produce a navigation
target. -/
theorem index_handlers_frame (key : List Char) (p : IndexPage) :
    (indexKeydown key p).snd = p ∧ (indexBtnClick p).snd = p := by
  constructor
  · simp only [indexKeydown]
    split
    · split <;> rfl
    · rfl
  · simp only [indexBtnClick]
    split <;> rfl

/-- Counterexample for C2 as stated: with query `banjir` on an index-like
page, the Enter handler navigates to `koleksi1.html?q=banjir`, not to
`koleksi.html?q=banjir`. -/
theorem indexRedirect_target_cex :
    (indexKeydown ("Enter".toList)
        { inputValue := ("banjir".toList), items := [] }).fst =
      some (("koleksi1.html?q=banjir").toList) ∧
    ¬ (indexKeydown ("Enter".toList)
        { inputValue := ("banjir".toList), items := [] }).fst =
      some (("koleksi.html?q=banjir").toList) := by
  constructor
  · decide
  · decide

/-- C2 (amended): on an index-like page, Enter or the search button with a
non-empty trimmed query navigates to `koleksi1.html?q=` followed by the
URL-encoded query. -/
theorem indexRedirect_target (hh hk : Bool) (p : IndexPage)
    (_hPage : isIndexLike hh hk = true)
    (hq : jsTrim p.inputValue ≠ []) :
    (indexKeydown ("Enter".toList) p).fst =
      some (("koleksi1.html?q=".toList) ++
        encodeURIComponent (jsTrim p.inputValue)) ∧
    (indexBtnClick p).fst =
      some (("koleksi1.html?q=".toList) ++
        encodeURIComponent (jsTrim p.inputValue)) := by
  have hq2 : ¬ (jsTrim p.inputValue).isEmpty = true := by simpa using hq
  constructor
  · simp [indexKeydown, hq2, koleksiTarget]
  · simp [indexBtnClick, hq2, koleksiTarget]

/-- Witness for C2 (amended): query `banjir` redirects to
`koleksi1.html?q=banjir` from both handlers. -/
theorem indexRedirect_target_witness :
    (indexKeydown ("Enter".toList)
        { inputValue := ("banjir".toList), items := [exRaw] }).fst =
      some (("koleksi1.html?q=".toList) ++
        encodeURIComponent (jsTrim ("banjir".toList))) ∧
    (indexBtnClick
        { inputValue := ("banjir".toList), items := [exRaw] }).fst =
      some (("koleksi1.html?q=".toList) ++
        encodeURIComponent (jsTrim ("banjir".toList))) :=
  indexRedirect_target true false
    { inputValue := ("banjir".toList), items := [exRaw] }
    (by decide) (by decide)

/-- C8: on a collection page whose URL carries a non-empty `q` parameter,
the load handler prefills the input with it and runs the filter at once,
yielding exactly the state the filter produces for that query. -/
theorem urlQuery_prefill (p p2 : Page) (ps : PageState) (u v : List Char)
    (hs : setup p = (p2, SetupOutcome.filterMode ps))
    (hq : getParam ("q".toList) u = some v) (hv : v ≠ []) :
    onLoad p u =
      (p2, SetupOutcome.filterMode (doSearch { ps with inputValue := v })) ∧
    (doSearch { ps with inputValue := v }).inputValue = v := by
  have hv2 : ¬ v.isEmpty = true := by simpa using hv
  constructor
  · unfold onLoad applyUrlQuery
    rw [hs, hq]
    simp [hv]
  · rw [doSearch_inputValue]

/-- Witness for C8: loading the sample collection page with `?q=banjir`
runs the filter on the prefilled query. -/
theorem urlQuery_prefill_witness :
    onLoad exPage ("?q=banjir".toList) =
      (exPage2, SetupOutcome.filterMode
        (doSearch { exPS with inputValue := ("banjir".toList) })) ∧
    (doSearch { exPS with inputValue := ("banjir".toList) }).inputValue =
      ("banjir".toList) :=
  urlQuery_prefill exPage exPage2 exPS ("?q=banjir".toList) ("banjir".toList)
    (by decide) (by decide) (by decide)

/-- C9: failures are tolerated by no-op: a missing search input, an absent
container, or containers without items leave the page untouched and set up
nothing, and a URL query string without a `q` parameter changes nothing. -/
theorem failure_noop (p : Page) (u : List Char) (s : PageState) :
    (p.searchInput = none → setup p = (p, SetupOutcome.noop)) ∧
    (∀ v, p.searchInput = some v →
      isIndexLike p.hasHighlight p.hasKoleksi = false →
      p.containerItems = [] → setup p = (p, SetupOutcome.noop)) ∧
    (∀ v, p.searchInput = some v →
      isIndexLike p.hasHighlight p.hasKoleksi = false →
      p.containerItems.flatten = [] → setup p = (p, SetupOutcome.noop)) ∧
    (getParam ("q".toList) u = none → applyUrlQuery u s = s) := by
  refine ⟨?_, ?_, ?_, ?_⟩
  · intro h
    unfold setup
    rw [h]
  · intro v hv hidx hempty
    unfold setup
    rw [hv]
    simp [hidx, hempty]
  · intro v hv hidx hflat
    unfold setup
    rw [hv]
    simp [hidx, hflat]
  · intro h
    unfold applyUrlQuery
    rw [h]

/-- Witness for C9: each failure case at a concrete page, and a URL without
`q`, are all no-ops. -/
theorem failure_noop_witness :
    setup noInputPage = (noInputPage, SetupOutcome.noop) ∧
    setup noContainersPage = (noContainersPage, SetupOutcome.noop) ∧
    setup emptyContainersPage = (emptyContainersPage, SetupOutcome.noop) ∧
    applyUrlQuery ("?x=1".toList) (exState ("")) = exState ("") := by
  refine ⟨?_, ?_, ?_, ?_⟩
  · exact (failure_noop noInputPage [] (exState (""))).1 rfl
  · exact (failure_noop noContainersPage [] (exState (""))).2.1 [] rfl
      (by decide) rfl
  · exact (failure_noop emptyContainersPage [] (exState (""))).2.2.1 [] rfl
      (by decide) rfl
  · exact (failure_noop noInputPage ("?x=1".toList) (exState (""))).2.2.2
      (by decide)

theorem isJsWs_space : isJsWs ' ' = true := by decide

theorem collapseGo_true (xs : List Char) :
    collapseGo true xs = collapseGo false (xs.dropWhile isJsWs) := by
  induction xs with
  | nil => rfl
  | cons c cs ih =>
    by_cases hc : isJsWs c = true
    · rw [List.dropWhile_cons_of_pos hc]
      simp [collapseGo, hc, ih]
    · have hc2 : isJsWs c = false := by simpa using hc
      rw [List.dropWhile_cons_of_neg hc]
      simp [collapseGo, hc2]

theorem collapseWs_cons_ws {c : Char} (cs : List Char) (hc : isJsWs c = true) :
    collapseWs (c :: cs) = ' ' :: collapseWs (cs.dropWhile isJsWs) := by
  unfold collapseWs
  simp [collapseGo, hc, collapseGo_true]

theorem collapseWs_cons_nws {c : Char} (cs : List Char)
    (hc : isJsWs c = false) :
    collapseWs (c :: cs) = c :: collapseWs cs := by
  unfold collapseWs
  simp [collapseGo, hc]

theorem dropWhile_collapseWs (xs : List Char) :
    (collapseWs xs).dropWhile isJsWs = collapseWs (xs.dropWhile isJsWs) := by
  suffices H : ∀ n (ys : List Char), ys.length ≤ n →
      (collapseWs ys).dropWhile isJsWs = collapseWs (ys.dropWhile isJsWs) by
    exact H xs.length xs le_rfl
  intro n
  induction n with
  | zero =>
    intro ys hy
    have h0 : ys = [] := List.length_eq_zero.mp (Nat.le_zero.mp hy)
    subst h0
    rfl
  | succ n ih =>
    intro ys hy
    match ys with
    | [] => rfl
    | c :: cs =>
      have hy2 : cs.length ≤ n := by
        simp only [List.length_cons] at hy
        omega
      by_cases hc : isJsWs c = true
      · rw [collapseWs_cons_ws cs hc]
        rw [List.dropWhile_cons_of_pos isJsWs_space]
        rw [ih (cs.dropWhile isJsWs)
          (le_trans (List.dropWhile_sublist _).length_le hy2)]
        rw [List.dropWhile_idempotent]
        rw [List.dropWhile_cons_of_pos hc]
      · have hc2 : isJsWs c = false := by simpa using hc
        rw [collapseWs_cons_nws cs hc2]
        rw [List.dropWhile_cons_of_neg hc, List.dropWhile_cons_of_neg hc]
        rw [collapseWs_cons_nws cs hc2]

theorem wordsWs_nil : wordsWs [] = [] := by
  simp [wordsWs]

theorem wordsWs_cons_ws {c : Char} (cs : List Char) (hc : isJsWs c = true) :
    wordsWs (c :: cs) = wordsWs cs := by
  simp only [wordsWs]
  simp [hc]

theorem wordsWs_cons_nws {c : Char} (cs : List Char)
    (hc : isJsWs c = false) :
    wordsWs (c :: cs) =
      (c :: cs.takeWhile fun d => !isJsWs d) ::
        wordsWs (cs.dropWhile fun d => !isJsWs d) := by
  simp only [wordsWs]
  simp [hc]

theorem wordsWs_dropWhile (xs : List Char) :
    wordsWs (xs.dropWhile isJsWs) = wordsWs xs := by
  induction xs with
  | nil => rfl
  | cons c cs ih =>
    by_cases hc : isJsWs c = true
    · rw [List.dropWhile_cons_of_pos hc, ih, wordsWs_cons_ws cs hc]
    · rw [List.dropWhile_cons_of_neg hc]

theorem wordsWs_ne_nil (xs : List Char) : ∀ w ∈ wordsWs xs, w ≠ [] := by
  suffices H : ∀ n (ys : List Char), ys.length ≤ n → ∀ w ∈ wordsWs ys, w ≠ [] by
    exact H xs.length xs le_rfl
  intro n
  induction n with
  | zero =>
    intro ys hy
    have h0 : ys = [] := List.length_eq_zero.mp (Nat.le_zero.mp hy)
    subst h0
    simp [wordsWs_nil]
  | succ n ih =>
    intro ys hy
    match ys with
    | [] => simp [wordsWs_nil]
    | c :: cs =>
      have hy2 : cs.length ≤ n := by
        simp only [List.length_cons] at hy
        omega
      by_cases hc : isJsWs c = true
      · rw [wordsWs_cons_ws cs hc]
        exact ih cs hy2
      · have hc2 : isJsWs c = false := by simpa using hc
        rw [wordsWs_cons_nws cs hc2]
        intro w hw
        rcases List.mem_cons.mp hw with hw1 | hw2
        · subst hw1
          exact List.cons_ne_nil _ _
        · exact ih (cs.dropWhile fun d => !isJsWs d)
            (le_trans (List.dropWhile_sublist _).length_le hy2) w hw2

theorem joinWords_cons_head (c : Char) (w : List Char)
    (ws : List (List Char)) :
    joinWords ((c :: w) :: ws) = c :: joinWords (w :: ws) := by
  cases ws with
  | nil => rfl
  | cons x t => rfl

theorem joinWords_nil_head (ws : List (List Char)) :
    joinWords ([] :: ws) = if ws.isEmpty then [] else ' ' :: joinWords ws := by
  cases ws with
  | nil => rfl
  | cons x t => rfl

theorem joinWords_eq_nil (L : List (List Char)) (h : ∀ w ∈ L, w ≠ []) :
    (joinWords L = [] ↔ L = []) := by
  cases L with
  | nil => simp [joinWords]
  | cons w t =>
    cases t with
    | nil =>
      have hw := h w (by simp)
      simp [joinWords, hw]
    | cons x t2 => simp [joinWords]

theorem headIsWs_dropWhile (xs : List Char) :
    headIsWs (xs.dropWhile isJsWs) = false := by
  induction xs with
  | nil => rfl
  | cons c cs ih =>
    by_cases hc : isJsWs c = true
    · rw [List.dropWhile_cons_of_pos hc]
      exact ih
    · rw [List.dropWhile_cons_of_neg hc]
      simpa [headIsWs] using hc

theorem rdropWhile_cons_neg {α : Type} (p : α → Bool) (c : α) (y : List α)
    (h : ¬ p c = true) :
    List.rdropWhile p (c :: y) = c :: List.rdropWhile p y := by
  unfold List.rdropWhile
  rw [List.reverse_cons, List.dropWhile_append]
  by_cases he : (y.reverse.dropWhile p).isEmpty = true
  · rw [if_pos he]
    have h1 : y.reverse.dropWhile p = [] := by simpa using he
    rw [h1]
    simp [List.dropWhile_cons_of_neg h]
  · rw [if_neg he]
    rw [List.reverse_append]
    simp

theorem rdropWhile_cons_pos {α : Type} [DecidableEq α] (p : α → Bool)
    (c : α) (y : List α) (h : p c = true) :
    List.rdropWhile p (c :: y) =
      if List.rdropWhile p y = [] then [] else c :: List.rdropWhile p y := by
  unfold List.rdropWhile
  rw [List.reverse_cons, List.dropWhile_append]
  by_cases he : (y.reverse.dropWhile p).isEmpty = true
  · rw [if_pos he]
    have h1 : y.reverse.dropWhile p = [] := by simpa using he
    rw [h1]
    simp [List.dropWhile_cons_of_pos h]
  · rw [if_neg he]
    have h1 : ¬ (y.reverse.dropWhile p).reverse = [] := by
      simp only [List.reverse_eq_nil_iff]
      simpa using he
    rw [if_neg h1]
    rw [List.reverse_append]
    simp

theorem rdropWhile_collapseWs (xs : List Char) :
    (collapseWs xs).rdropWhile isJsWs = leadSp xs ++ joinWords (wordsWs xs) := by
  suffices H : ∀ n (ys : List Char), ys.length ≤ n →
      (collapseWs ys).rdropWhile isJsWs =
        leadSp ys ++ joinWords (wordsWs ys) by
    exact H xs.length xs le_rfl
  intro n
  induction n with
  | zero =>
    intro ys hy
    have h0 : ys = [] := List.length_eq_zero.mp (Nat.le_zero.mp hy)
    subst h0
    simp [collapseWs, collapseGo, leadSp, headIsWs, wordsWs_nil, joinWords,
      List.rdropWhile_nil]
  | succ n ih =>
    intro ys hy
    match ys with
    | [] =>
      simp [collapseWs, collapseGo, leadSp, headIsWs, wordsWs_nil, joinWords,
        List.rdropWhile_nil]
    | c :: cs =>
      have hy2 : cs.length ≤ n := by
        simp only [List.length_cons] at hy
        omega
      by_cases hc : isJsWs c = true
      · rw [collapseWs_cons_ws cs hc]
        rw [rdropWhile_cons_pos _ _ _ isJsWs_space]
        rw [ih (cs.dropWhile isJsWs)
          (le_trans (List.dropWhile_sublist _).length_le hy2)]
        have hlead : leadSp (cs.dropWhile isJsWs) = [] := by
          simp [leadSp, headIsWs_dropWhile]
        rw [hlead, List.nil_append, wordsWs_dropWhile cs,
          wordsWs_cons_ws cs hc]
        by_cases hjn : wordsWs cs = []
        · simp [leadSp, headIsWs, hc, hjn, wordsWs_cons_ws cs hc, joinWords]
        · have hne : joinWords (wordsWs cs) ≠ [] := fun hcontra =>
            hjn ((joinWords_eq_nil _ (wordsWs_ne_nil cs)).mp hcontra)
          rw [if_neg hne]
          simp [leadSp, headIsWs, hc, wordsWs_cons_ws cs hc, hjn]
      · have hc2 : isJsWs c = false := by simpa using hc
        rw [collapseWs_cons_nws cs hc2]
        rw [rdropWhile_cons_neg _ _ _ hc]
        rw [ih cs hy2]
        rw [wordsWs_cons_nws cs hc2]
        have hlead : leadSp (c :: cs) = [] := by
          simp [leadSp, headIsWs, hc2]
        rw [hlead, List.nil_append, joinWords_cons_head]
        congr 1
        match cs with
        | [] => simp [leadSp, headIsWs, wordsWs_nil, joinWords]
        | d :: cs2 =>
          by_cases hd : isJsWs d = true
          · have hNd : ¬ (fun d => !isJsWs d) d = true := by simp [hd]
            rw [List.takeWhile_cons_of_neg (p := fun d => !isJsWs d) hNd,
              List.dropWhile_cons_of_neg (p := fun d => !isJsWs d) hNd]
            rw [joinWords_nil_head]
            rw [wordsWs_cons_ws cs2 hd]
            by_cases hw0 : wordsWs cs2 = []
            · simp [leadSp, headIsWs, hd, hw0, wordsWs_cons_ws cs2 hd,
                joinWords, wordsWs_nil]
            · have hwe : ¬ (wordsWs cs2).isEmpty = true := by simpa using hw0
              rw [if_neg hwe]
              simp [leadSp, headIsWs, hd, wordsWs_cons_ws cs2 hd, hw0]
          · have hd2 : isJsWs d = false := by simpa using hd
            have hNd : (fun d => !isJsWs d) d = true := by simp [hd2]
            rw [List.takeWhile_cons_of_pos (p := fun d => !isJsWs d) hNd,
              List.dropWhile_cons_of_pos (p := fun d => !isJsWs d) hNd]
            rw [wordsWs_cons_nws cs2 hd2]
            simp [leadSp, headIsWs, hd2]

theorem jsTrim_collapseWs (xs : List Char) :
    jsTrim (collapseWs xs) = joinWords (wordsWs xs) := by
  unfold jsTrim
  rw [dropWhile_collapseWs, rdropWhile_collapseWs (xs.dropWhile isJsWs)]
  have hlead : leadSp (xs.dropWhile isJsWs) = [] := by
    simp [leadSp, headIsWs_dropWhile]
  rw [hlead, List.nil_append, wordsWs_dropWhile]

theorem jsNormalizeText_eq_spec (t : List Char) :
    jsNormalizeText t = specSearchText t := by
  unfold jsNormalizeText specSearchText
  rw [jsTrim_collapseWs]

theorem doSearch_items_search (s : PageState) :
    (doSearch s).items.map (fun it => it.search) =
      s.items.map fun it => it.search := by
  by_cases h : normQuery s.inputValue = []
  · rw [doSearch_empty s h]
    rw [List.map_map]
    rfl
  · rw [doSearch_nonempty s h]
    rw [List.map_map]
    simp [Function.comp, filterItem_search]

/-- C3: for every item the cached search text computed at load equals the
text of the item with whitespace runs collapsed to single spaces, trimmed, and
lowercased (equivalently: its lowercased words joined by single spaces),
and the filter never recomputes or alters it. -/
theorem searchText_spec (p p2 : Page) (ps : PageState)
    (h : setup p = (p2, SetupOutcome.filterMode ps)) :
    (ps.items.map fun it => it.search) =
      (p.containerItems.flatten.map fun it => specSearchText it.textContent) ∧
    ∀ s : PageState,
      (doSearch s).items.map (fun it => it.search) =
        s.items.map fun it => it.search := by
  refine ⟨?_, fun s => doSearch_items_search s⟩
  unfold setup at h
  split at h
  · simp at h
  · split at h
    · simp at h
    · split at h
      · simp at h
      · split at h
        · simp at h
        · simp only [Prod.mk.injEq, SetupOutcome.filterMode.injEq] at h
          obtain ⟨-, h3⟩ := h
          rw [← h3]
          rw [List.map_map]
          simp [Function.comp_def, initItem, jsNormalizeText_eq_spec]

/-- Witness for C3: the cached search text on the sample page matches the
spec-level description of the text of its card. -/
theorem searchText_spec_witness :
    (exPS.items.map fun it => it.search) =
      (exPage.containerItems.flatten.map fun it =>
        specSearchText it.textContent) :=
  (searchText_spec exPage exPage2 exPS (by decide)).1

end Portalmas


